import Mathlib

/-!
Shallow embedding of `src/main.py` (mixed-museum-notifications), a scheduled
reporting bot.  External effects (file system, IMAP, SMTP, NewsAPI, OpenAI,
BigQuery, matplotlib) are modelled by explicit state passing and by
parameters standing for the results of external calls; the pure control
flow and data transformations are translated function by function from the
source.  Machine integers are modelled as `Int`/`Nat` (Python integers are
unbounded), pandas numeric values as `ℚ` (the values in play are integer
counts and exact ratios), dates as epoch-day counts (`Int`), and a message
body as its list of lines (Python iterates `body.splitlines()`).

Python string primitives (`.upper()`, `.lower()`, `.strip()`,
`.startswith(c)`, `.split(c)`) are modelled by structurally recursive
functions on the character list of a `String`, so that every definition is
kernel-executable on concrete inputs.
-/

/-- Python `str.upper()` (ASCII letters; the strings in play are ASCII). -/
def pyUpper (s : String) : String := ⟨s.data.map Char.toUpper⟩

/-- Python `str.lower()` (ASCII letters; the strings in play are ASCII). -/
def pyLower (s : String) : String := ⟨s.data.map Char.toLower⟩

/-- Python `str.strip()`: remove leading and trailing whitespace. -/
def pyStrip (s : String) : String :=
  ⟨((s.data.dropWhile Char.isWhitespace).reverse.dropWhile Char.isWhitespace).reverse⟩

/-- Python `str.startswith(c)` for a single-character marker `c`. -/
def pyStartsWith (s : String) (c : Char) : Bool :=
  match s.data with
  | [] => false
  | a :: _ => a == c

/-- The set of frequency command keywords recognised by the reply parser
(`src/main.py` line 53). -/
def commandKeywords : List String := ["daily", "weekly", "fortnightly"]

/-- Embedding of `get_current_frequency` (`src/main.py` lines 29-36).
The backing file `frequency.txt` is modelled as `Option String`:
`none` when the file is absent, `some s` when it exists with contents `s`.
Python: absent file yields `"DAILY"`, otherwise `f.read().strip().upper()`. -/
def get_current_frequency (file : Option String) : String :=
  match file with
  | none => "DAILY"
  | some s => pyUpper (pyStrip s)

/-- Embedding of `update_frequency` (`src/main.py` lines 38-44): overwrites
the backing file with `new_freq.upper()`; the previous contents are ignored. -/
def update_frequency (new_freq : String) (_file : Option String) : Option String :=
  some (pyUpper new_freq)

/-- Embedding of `parse_command_from_reply` (`src/main.py` lines 46-57),
with the body already split into lines (`body.splitlines()`).
For each line, `cleaned = line.strip().lower()`; a keyword returns
`cleaned.upper()`; a non-empty line not starting with the quote marker
breaks the loop (returning `None`); otherwise the scan continues. -/
def parse_command_from_reply (lines : List String) : Option String :=
  match lines with
  | [] => none
  | line :: rest =>
    let cleaned := pyLower (pyStrip line)
    if cleaned ∈ commandKeywords then
      some (pyUpper cleaned)
    else if cleaned ≠ "" ∧ pyStartsWith cleaned '>' = false then
      none
    else
      parse_command_from_reply rest

/-- `ALLOWED_SENDERS` (`src/main.py` line 25). -/
def ALLOWED_SENDERS : List String := ["chamion@themixedmuseum.org"]

/-- Embedding of the command-handling loop of `check_email_for_command`
(`src/main.py` lines 59-88).  The mailbox poll is modelled as a list of
`(sender, body-lines)` pairs for the unread messages; messages from senders
not on the allow-list are skipped; for the rest, a parsed command updates
the frequency file, and `None` leaves it untouched.  Returns the final
state of the frequency file. -/
def check_email_for_command (msgs : List (String × List String))
    (file : Option String) : Option String :=
  msgs.foldl (fun fs msg =>
    if pyLower msg.1 ∈ ALLOWED_SENDERS.map (fun a => pyLower a) then
      match parse_command_from_reply msg.2 with
      | some command => update_frequency command fs
      | none => fs
    else fs) file

/-- Day-of-week in Python's `date.weekday()` convention (Monday = 0), for a
date given as a count of days since 1970-01-01 (which was a Thursday,
weekday 3). -/
def weekday (d : Int) : Int := (d + 3).emod 7

/-- The fortnight anchor date `datetime(2024, 5, 6).date()`
(`src/main.py` line 101) as an epoch-day count: 2024-05-06 is day 19849
since 1970-01-01. -/
def fortnightAnchor : Int := 19849

/-- Embedding of `should_send_email` (`src/main.py` lines 90-103) with
today's date passed explicitly as an epoch-day count.  Python's `//` is
floor division (`Int.fdiv`) and `%` on a positive modulus is `Int.emod`. -/
def should_send_email (frequency : String) (today : Int) : Bool :=
  if frequency = "DAILY" then
    true
  else if frequency = "WEEKLY" then
    decide (weekday today = 0)
  else if frequency = "FORTNIGHTLY" then
    decide (((today - fortnightAnchor).fdiv 7).emod 2 = 0) && decide (weekday today = 0)
  else
    false

/-- The three valid uppercase cadence values. -/
def cadenceValues : List String := ["DAILY", "WEEKLY", "FORTNIGHTLY"]

/-- C1: for every date and every stored cadence value, the send-today
decision is: DAILY always true; WEEKLY true iff the weekday is Monday
(weekday 0); FORTNIGHTLY true iff the weekday is Monday and the number of
whole weeks since the anchor 2024-05-06, `(today - anchor).days // 7`, is
even; any other cadence value yields false (fail-closed). -/
theorem should_send_email_cases (frequency : String) (today : Int) :
    (frequency = "DAILY" → should_send_email frequency today = true) ∧
    (frequency = "WEEKLY" →
      (should_send_email frequency today = true ↔ weekday today = 0)) ∧
    (frequency = "FORTNIGHTLY" →
      (should_send_email frequency today = true ↔
        weekday today = 0 ∧ ((today - fortnightAnchor).fdiv 7).emod 2 = 0)) ∧
    (frequency ∉ cadenceValues → should_send_email frequency today = false) := by
  refine ⟨?_, ?_, ?_, ?_⟩ <;> intro h
  · simp [should_send_email, h]
  · subst h
    simp [should_send_email, and_comm]
  · subst h
    simp [should_send_email, and_comm]
  · simp only [cadenceValues, List.mem_cons, List.not_mem_nil, or_false, not_or] at h
    simp [should_send_email, h.1, h.2.1, h.2.2]

/-- Witness for C1 at FORTNIGHTLY on 2024-05-20 (epoch day 19863, a Monday
two whole weeks after the anchor). -/
theorem should_send_email_cases_witness :
    should_send_email ("FORTNIGHTLY") 19863 = true :=
  ((should_send_email_cases ("FORTNIGHTLY") 19863).2.2.1 rfl).mpr (by decide)

/-- C8: writing a cadence value `v` (any capitalisation of one of the three
values) and then reading the store returns `v` normalised to uppercase; and
when the backing file is absent, reading returns DAILY. -/
theorem frequency_roundtrip (v : String) (file : Option String)
    (h : pyUpper v ∈ cadenceValues) :
    get_current_frequency (update_frequency v file) = pyUpper v ∧
    get_current_frequency none = "DAILY" := by
  refine ⟨?_, rfl⟩
  show pyUpper (pyStrip (pyUpper v)) = pyUpper v
  simp only [cadenceValues, List.mem_cons, List.not_mem_nil, or_false] at h
  rcases h with h | h | h <;> rw [h] <;> decide

/-- Witness for C8 at `v = "weekly"`. -/
theorem frequency_roundtrip_witness :
    get_current_frequency (update_frequency ("weekly") none) = "WEEKLY" :=
  ((frequency_roundtrip ("weekly") none (by decide)).1).trans (by decide)

/-- C9 counterexample: the backing file can hold arbitrary text, and the
read operation does not validate it.  With contents "banana" the read
returns "BANANA", which is not one of the three cadence values — so it is
false that the read returns a member of the set for every possible content
of the backing store. -/
theorem get_current_frequency_not_validated :
    get_current_frequency (some ("banana")) = "BANANA" ∧
    "BANANA" ∉ cadenceValues := by
  constructor
  · decide
  · decide

/-- C9 amended: reading an absent store returns DAILY, and reading returns
the stored content stripped of surrounding whitespace and uppercased,
without validation; consequently the result is one of the three cadence
values when (and only when) the stored content is, case-insensitively and
modulo surrounding whitespace, one of the three values — not for every
possible content. -/
theorem get_current_frequency_valid_of_valid_contents (s : String)
    (h : pyUpper (pyStrip s) ∈ cadenceValues) :
    get_current_frequency (some s) ∈ cadenceValues ∧
    get_current_frequency (some s) = pyUpper (pyStrip s) ∧
    get_current_frequency none = "DAILY" :=
  ⟨h, rfl, rfl⟩

/-- Witness for the amended C9 at contents `" Weekly "`. -/
theorem get_current_frequency_valid_witness :
    get_current_frequency (some (" Weekly ")) ∈ cadenceValues :=
  (get_current_frequency_valid_of_valid_contents (" Weekly ") (by decide)).1

/-- A line whose cleaned form starts with the quote marker is not one of
the command keywords. -/
theorem not_keyword_of_quoted {s : String} (h : pyStartsWith s '>' = true) :
    s ∉ commandKeywords := by
  intro hmem
  simp only [commandKeywords, List.mem_cons, List.not_mem_nil, or_false] at hmem
  rcases hmem with rfl | rfl | rfl <;> simp [pyStartsWith] at h

/-- C2: scanning lines in order, the parser skips blank lines and lines
beginning with the quote marker, matches the first remaining substantive
line (case-insensitively, after stripping) against the three keywords,
returns that cadence uppercased on a match and `none` otherwise, and never
inspects the lines after the first substantive one (`rest` does not occur
on the right-hand side). -/
theorem parse_command_first_substantive
    (pre : List String) (line : String) (rest : List String)
    (hpre : ∀ l ∈ pre,
      pyLower (pyStrip l) = "" ∨ pyStartsWith (pyLower (pyStrip l)) '>' = true)
    (hline : pyLower (pyStrip line) ≠ "" ∧
      pyStartsWith (pyLower (pyStrip line)) '>' = false) :
    parse_command_from_reply (pre ++ line :: rest) =
      (if pyLower (pyStrip line) ∈ commandKeywords
       then some (pyUpper (pyLower (pyStrip line)))
       else none) := by
  induction pre with
  | nil =>
    rw [List.nil_append, parse_command_from_reply]
    by_cases hmem : pyLower (pyStrip line) ∈ commandKeywords
    · simp [hmem]
    · simp [hmem, hline.1, hline.2]
  | cons p ps ih =>
    have hp := hpre p (List.mem_cons_self p ps)
    have hnk : pyLower (pyStrip p) ∉ commandKeywords := by
      rcases hp with hblank | hquote
      · rw [hblank]; decide
      · exact not_keyword_of_quoted hquote
    have hnb : ¬(pyLower (pyStrip p) ≠ "" ∧
        pyStartsWith (pyLower (pyStrip p)) '>' = false) := by
      rcases hp with hblank | hquote
      · intro hc; exact hc.1 hblank
      · intro hc; rw [hquote] at hc; exact absurd hc.2 (by decide)
    have hrec : parse_command_from_reply ((p :: ps) ++ line :: rest) =
        parse_command_from_reply (ps ++ line :: rest) := by
      rw [List.cons_append]
      show (if pyLower (pyStrip p) ∈ commandKeywords
            then some (pyUpper (pyLower (pyStrip p)))
            else if pyLower (pyStrip p) ≠ "" ∧
                pyStartsWith (pyLower (pyStrip p)) '>' = false
              then none
              else parse_command_from_reply (ps ++ line :: rest)) =
          parse_command_from_reply (ps ++ line :: rest)
      rw [if_neg hnk, if_neg hnb]
    rw [hrec]
    exact ih (fun l hl => hpre l (List.mem_cons_of_mem p hl))

/-- Witness for C2: two quoted/blank lines, then `"  Weekly "`, then a
trailing line that is never inspected. -/
theorem parse_command_first_substantive_witness :
    parse_command_from_reply ["> please keep these", "", "  Weekly ", "daily"] =
      some "WEEKLY" :=
  (parse_command_first_substantive ["> please keep these", ""] ("  Weekly ")
    ["daily"] (by decide) (by decide)).trans (by decide)

/-- Every non-`none` result of the reply parser is one of the three
uppercase cadence values. -/
theorem parse_command_valid (lines : List String) :
    parse_command_from_reply lines = none ∨
      ∃ c, c ∈ cadenceValues ∧ parse_command_from_reply lines = some c := by
  induction lines with
  | nil => exact Or.inl rfl
  | cons line rest ih =>
    rw [parse_command_from_reply]
    by_cases hmem : pyLower (pyStrip line) ∈ commandKeywords
    · refine Or.inr ⟨pyUpper (pyLower (pyStrip line)), ?_, by simp [hmem]⟩
      simp only [commandKeywords, List.mem_cons, List.not_mem_nil, or_false] at hmem
      rcases hmem with h | h | h <;> rw [h] <;> decide
    · by_cases hbreak : pyLower (pyStrip line) ≠ "" ∧
        pyStartsWith (pyLower (pyStrip line)) '>' = false
      · exact Or.inl (by simp [hmem, hbreak.1, hbreak.2])
      · simpa [hmem, hbreak] using ih

/-- Unfolding one step of the command-handling loop. -/
theorem check_email_cons (msg : String × List String)
    (rest : List (String × List String)) (file : Option String) :
    check_email_for_command (msg :: rest) file =
      check_email_for_command rest
        (if pyLower msg.1 ∈ ALLOWED_SENDERS.map (fun a => pyLower a) then
          (match parse_command_from_reply msg.2 with
           | some command => update_frequency command file
           | none => file)
         else file) := rfl

/-- The command handler leaves the frequency file unchanged or writes one
of the three uppercase cadence values. -/
theorem check_email_state_valid (msgs : List (String × List String))
    (file : Option String) :
    check_email_for_command msgs file = file ∨
      ∃ c, c ∈ cadenceValues ∧ check_email_for_command msgs file = some c := by
  induction msgs generalizing file with
  | nil => exact Or.inl rfl
  | cons msg rest ih =>
    have hstep : ∃ file1 : Option String,
        check_email_for_command (msg :: rest) file = check_email_for_command rest file1 ∧
        (file1 = file ∨ ∃ c, c ∈ cadenceValues ∧ file1 = some c) := by
      by_cases hallow : pyLower msg.1 ∈ ALLOWED_SENDERS.map (fun a => pyLower a)
      · rcases parse_command_valid msg.2 with hnone | ⟨c, hc, hsome⟩
        · refine ⟨file, ?_, Or.inl rfl⟩
          rw [check_email_cons, if_pos hallow, hnone]
        · refine ⟨some (pyUpper c), ?_, Or.inr ⟨pyUpper c, ?_, rfl⟩⟩
          · rw [check_email_cons, if_pos hallow, hsome]
            rfl
          · simp only [cadenceValues, List.mem_cons, List.not_mem_nil, or_false] at hc ⊢
            rcases hc with h | h | h <;> rw [h] <;> decide
      · refine ⟨file, ?_, Or.inl rfl⟩
        rw [check_email_cons, if_neg hallow]
    rcases hstep with ⟨file1, heq, hfile1⟩
    rw [heq]
    rcases ih file1 with hsame | hvalid
    · rw [hsame]
      rcases hfile1 with h | ⟨c, hc, h⟩
      · exact Or.inl h
      · exact Or.inr ⟨c, hc, h⟩
    · exact Or.inr hvalid

/-- C10: the parser returns `none` or one of the three uppercase cadence
values; the handler, which writes only parser results, therefore either
leaves the frequency file untouched (in particular whenever the parser
returns `none` for a message) or writes one of the three valid uppercase
values. -/
theorem command_handler_writes_valid (msgs : List (String × List String))
    (file : Option String) (lines : List String) :
    (parse_command_from_reply lines = none ∨
      ∃ c, c ∈ cadenceValues ∧ parse_command_from_reply lines = some c) ∧
    (parse_command_from_reply lines = none →
      ∀ sender, check_email_for_command [(sender, lines)] file = file) ∧
    (check_email_for_command msgs file = file ∨
      ∃ c, c ∈ cadenceValues ∧ check_email_for_command msgs file = some c) := by
  refine ⟨parse_command_valid lines, ?_, check_email_state_valid msgs file⟩
  intro hnone sender
  rw [check_email_cons]
  simp only [hnone]
  split <;> rfl

/-- Witness for C10: a reply with no command from the allowed sender
leaves the store untouched. -/
theorem command_handler_writes_valid_witness :
    check_email_for_command [(("chamion@themixedmuseum.org"), ["hello there"])]
      none = none :=
  (command_handler_writes_valid [(("chamion@themixedmuseum.org"), ["hello there"])]
    none ["hello there"]).2.1 (by decide) ("chamion@themixedmuseum.org")

/-- Python `url.split('?')[0]`: the prefix of the string up to (excluding)
the first occurrence of the separator. -/
def pySplitFirst (s : String) (sep : Char) : String :=
  ⟨s.data.takeWhile (fun c => c != sep)⟩

/-- The canonical URL used as deduplication key in `get_news_articles`
(`src/main.py` line 143): the URL with the query string (everything from
the first `?`) stripped. -/
def canonical_url (url : String) : String := pySplitFirst url '?'

/-- A NewsAPI article dict, restricted to the fields the program reads.
`description` and `content` are `Option` because the keys may be absent. -/
structure Article where
  title : String
  description : Option String
  content : Option String
  url : String
deriving DecidableEq

/-- One step of the deduplication loop of `get_news_articles`
(`src/main.py` lines 142-146): skip an article whose canonical URL is
already in the seen set, otherwise append it and record its URL. -/
def dedup_step (acc : List Article × List String) (article : Article) :
    List Article × List String :=
  let url := canonical_url article.url
  if url ∈ acc.2 then acc else (acc.1 ++ [article], url :: acc.2)

/-- Embedding of the deduplication loop of `get_news_articles`
(`src/main.py` lines 140-147): a `seen_urls` set (modelled as a list with
membership) keyed by the canonical URL; the first article with each
canonical URL is kept in order. -/
def dedup_articles (articles : List Article) : List Article :=
  (articles.foldl dedup_step ([], [])).1

/-- Invariant of the deduplication fold: if the accumulated articles have
pairwise-distinct canonical URLs, all of them recorded in the seen set,
then the final article list has pairwise-distinct canonical URLs. -/
theorem dedup_step_foldl_nodup (articles : List Article) :
    ∀ acc : List Article × List String,
      (acc.1.map (fun a => canonical_url a.url)).Nodup →
      (∀ u ∈ acc.1.map (fun a => canonical_url a.url), u ∈ acc.2) →
      (((articles.foldl dedup_step acc).1).map
        (fun a => canonical_url a.url)).Nodup := by
  induction articles with
  | nil => intro acc h1 _; exact h1
  | cons article rest ih =>
    intro acc h1 h2
    rw [List.foldl_cons]
    by_cases hseen : canonical_url article.url ∈ acc.2
    · have hstep : dedup_step acc article = acc := by
        simp only [dedup_step]
        rw [if_pos hseen]
      rw [hstep]
      exact ih acc h1 h2
    · have hstep : dedup_step acc article =
          (acc.1 ++ [article], canonical_url article.url :: acc.2) := by
        simp only [dedup_step]
        rw [if_neg hseen]
      have hnotin : canonical_url article.url ∉
          acc.1.map (fun a => canonical_url a.url) :=
        fun hc => hseen (h2 _ hc)
      rw [hstep]
      apply ih
      · show ((acc.1 ++ [article]).map (fun a => canonical_url a.url)).Nodup
        rw [List.map_append]
        refine h1.append (List.nodup_singleton _) ?_
        intro u hu1 hu2
        simp only [List.map_cons, List.map_nil, List.mem_singleton] at hu2
        exact hnotin (hu2 ▸ hu1)
      · intro u hu
        rw [List.map_append] at hu
        rcases List.mem_append.mp hu with hu | hu
        · exact List.mem_cons_of_mem _ (h2 u hu)
        · simp only [List.map_cons, List.map_nil, List.mem_singleton] at hu
          exact hu ▸ List.mem_cons_self _ _

/-- C6: the deduplicated article list never contains two entries whose
URLs agree after stripping the query string; and for two entries whose
URLs share a canonical form (e.g. differ only in query strings), exactly
one entry is retained. -/
theorem dedup_articles_nodup (articles : List Article) (a1 a2 : Article)
    (h : canonical_url a1.url = canonical_url a2.url) :
    ((dedup_articles articles).map (fun a => canonical_url a.url)).Nodup ∧
    dedup_articles [a1, a2] = [a1] := by
  constructor
  · exact dedup_step_foldl_nodup articles ([], []) List.nodup_nil (by simp)
  · show (dedup_step (dedup_step ([], []) a1) a2).1 = [a1]
    have h1 : dedup_step (([], []) : List Article × List String) a1 =
        ([a1], [canonical_url a1.url]) := by
      simp only [dedup_step]
      rw [if_neg (List.not_mem_nil _)]
      rfl
    rw [h1]
    have h2 : dedup_step ([a1], [canonical_url a1.url]) a2 =
        ([a1], [canonical_url a1.url]) := by
      simp only [dedup_step]
      rw [if_pos (by rw [← h]; exact List.mem_singleton_self _)]
    rw [h2]

/-- Witness for C6: two articles whose URLs differ only in the query
string collapse to the first. -/
theorem dedup_articles_nodup_witness :
    dedup_articles
      [⟨"story", none, none, "https://x.org/a?utm=1"⟩,
       ⟨"story again", none, none, "https://x.org/a?utm=2"⟩] =
      [⟨"story", none, none, "https://x.org/a?utm=1"⟩] :=
  (dedup_articles_nodup
    [⟨"story", none, none, "https://x.org/a?utm=1"⟩,
     ⟨"story again", none, none, "https://x.org/a?utm=2"⟩]
    ⟨"story", none, none, "https://x.org/a?utm=1"⟩
    ⟨"story again", none, none, "https://x.org/a?utm=2"⟩ (by decide)).2

/-- Description passed to the summariser in `build_news_section`
(`src/main.py` line 174): `article.get('description') or
article.get('content', '')` — an absent or empty description falls back
to the content (or the empty string when that is also absent). -/
def article_desc (a : Article) : String :=
  match a.description with
  | some d => if d = "" then a.content.getD ("") else d
  | none => a.content.getD ("")

/-- The HTML block appended for one kept article
(`src/main.py` line 178). -/
def news_block (title summary url : String) : String :=
  "<b>" ++ title ++ "</b><br>" ++ summary ++ "<br><a href='" ++ url ++ "'>"
    ++ url ++ "<\x2fa><br><br>"

/-- Concatenation of a list of strings in order. -/
def concatStrings : List String → String
  | [] => ""
  | s :: rest => s ++ concatStrings rest

/-- Embedding of `build_news_section` (`src/main.py` lines 167-179),
parameterised by the external summarisation call (`summarise_article`,
which returns the model's stripped response text) and by the deduplicated
candidate articles returned by `get_news_articles`.  An article is kept
unless the response lowercases to "not relevant"; if nothing is kept the
fixed placeholder is returned. -/
def build_news_section (summarise : String → String → String)
    (articles : List Article) : String :=
  let sec := articles.foldl
    (fun sec article =>
      if pyLower (summarise article.title (article_desc article)) ≠ "not relevant" then
        sec ++ news_block article.title
          (summarise article.title (article_desc article)) article.url
      else sec)
    ""
  if sec = "" then "No relevant news articles today." else sec

/-- The news fold appends, in order, exactly the blocks of the articles
whose summaries do not lowercase to "not relevant". -/
theorem build_news_fold (summarise : String → String → String)
    (articles : List Article) :
    ∀ acc : String,
      articles.foldl
        (fun sec article =>
          if pyLower (summarise article.title (article_desc article)) ≠ "not relevant" then
            sec ++ news_block article.title
              (summarise article.title (article_desc article)) article.url
          else sec)
        acc =
      acc ++ concatStrings
        ((articles.filter (fun a =>
            decide (pyLower (summarise a.title (article_desc a)) ≠ "not relevant"))).map
          (fun a => news_block a.title (summarise a.title (article_desc a)) a.url)) := by
  induction articles with
  | nil =>
    intro acc
    show acc = acc ++ ""
    rw [String.append_empty]
  | cons a rest ih =>
    intro acc
    rw [List.foldl_cons]
    by_cases hk : pyLower (summarise a.title (article_desc a)) ≠ "not relevant"
    · rw [List.filter_cons_of_pos (by simpa using hk), List.map_cons, concatStrings]
      show List.foldl _
        (if pyLower (summarise a.title (article_desc a)) ≠ "not relevant"
         then acc ++ news_block a.title (summarise a.title (article_desc a)) a.url
         else acc) rest = _
      rw [if_pos hk, ih, String.append_assoc]
    · rw [List.filter_cons_of_neg (by simpa using hk)]
      show List.foldl _
        (if pyLower (summarise a.title (article_desc a)) ≠ "not relevant"
         then acc ++ news_block a.title (summarise a.title (article_desc a)) a.url
         else acc) rest = _
      rw [if_neg hk, ih]

/-- A kept article's block is never the empty string (it starts with
the literal `<b>` tag). -/
theorem news_block_ne_empty (t s u : String) : news_block t s u ≠ "" := by
  intro h
  have hdata : (news_block t s u).data = [] := by rw [h]
  rw [news_block, String.data_append] at hdata
  exact absurd (List.append_eq_nil.mp hdata).2 (by decide)

/-- Appending to a non-empty string yields a non-empty string. -/
theorem append_ne_empty_of_left {s : String} (t : String) (h : s ≠ "") :
    s ++ t ≠ "" := by
  intro hc
  apply h
  have hdata : (s ++ t).data = [] := by rw [hc]
  rw [String.data_append] at hdata
  exact String.ext (List.append_eq_nil.mp hdata).1

/-- C7: an article is dropped iff its summarisation response lowercases to
"not relevant"; the kept articles appear as blocks of title, summary and
link, in order; and when nothing is kept — in particular when the
candidate list is empty — the section equals the fixed placeholder. -/
theorem build_news_section_spec (summarise : String → String → String)
    (articles : List Article) :
    build_news_section summarise articles =
      (if articles.filter (fun a =>
            decide (pyLower (summarise a.title (article_desc a)) ≠ "not relevant")) = []
       then "No relevant news articles today."
       else concatStrings
        ((articles.filter (fun a =>
            decide (pyLower (summarise a.title (article_desc a)) ≠ "not relevant"))).map
          (fun a => news_block a.title (summarise a.title (article_desc a)) a.url))) := by
  show (if articles.foldl _ "" = "" then "No relevant news articles today."
        else articles.foldl _ "") = _
  rw [build_news_fold summarise articles ""]
  rw [String.empty_append]
  cases hfil : articles.filter (fun a =>
      decide (pyLower (summarise a.title (article_desc a)) ≠ "not relevant")) with
  | nil =>
    rw [List.map_nil]
    rw [if_pos (show concatStrings ([] : List String) = "" from rfl),
      if_pos (show ([] : List Article) = [] from rfl)]
  | cons b bs =>
    rw [List.map_cons, concatStrings]
    have hne : news_block b.title (summarise b.title (article_desc b)) b.url ++
        concatStrings (bs.map
          (fun a => news_block a.title (summarise a.title (article_desc a)) a.url)) ≠ "" :=
      append_ne_empty_of_left _ (news_block_ne_empty _ _ _)
    rw [if_neg hne, if_neg (List.cons_ne_nil b bs)]

/-- One `(label, value)` row of a GA4 metric family in one window, as
produced by the warehouse query of `get_ga4_data` (values are counts;
modelled in `ℚ` because pandas arithmetic on the joined frame is exact
rational arithmetic on these integer counts). -/
structure Row where
  label : String
  value : ℚ
deriving DecidableEq

/-- The percent-change formula of `summarise_ga4_with_comparison`
(`src/main.py` line 274):
`(value_now - value_prev) / value_prev.replace(0, 1) * 100`. -/
def percent_change (value_now value_prev : ℚ) : ℚ :=
  (value_now - value_prev) / (if value_prev = 0 then 1 else value_prev) * 100

/-- The value a window contributes for a label: the row's value if the
label indexes a row, else 0 (`fillna(0)` after the outer join,
`src/main.py` line 273). -/
def lookupVal (rows : List Row) (l : String) : ℚ :=
  match rows.find? (fun r => r.label == l) with
  | some r => r.value
  | none => 0

/-- The label index of the outer join (`now.join(prev, how='outer')`,
`src/main.py` line 273): the current window's labels in order, then the
labels appearing only in the previous window. -/
def joinLabels (now prev : List Row) : List String :=
  now.map Row.label ++
    (prev.map Row.label).filter (fun l => decide (l ∉ now.map Row.label))

/-- A row of the joined comparison frame for one label:
`value_now`, `value_prev` (0 on a missing side) and the percent change. -/
structure JoinedRow where
  label : String
  value_now : ℚ
  value_prev : ℚ
  change : ℚ
deriving DecidableEq

/-- The joined comparison frame of one metric family
(`src/main.py` lines 271-274): outer join on label with `fillna(0)` and
the percent-change column. -/
def combine (now prev : List Row) : List JoinedRow :=
  (joinLabels now prev).map (fun l =>
    { label := l
      value_now := lookupVal now l
      value_prev := lookupVal prev l
      change := percent_change (lookupVal now l) (lookupVal prev l) })

/-- The descending-by-current-value order used by
`sort_values(by='value_now', ascending=False)` (`src/main.py` line 275). -/
def byValueNowDesc (a b : JoinedRow) : Prop := b.value_now ≤ a.value_now

instance : DecidableRel byValueNowDesc :=
  fun a b => inferInstanceAs (Decidable (b.value_now ≤ a.value_now))

instance : IsTotal JoinedRow byValueNowDesc :=
  ⟨fun a b => le_total b.value_now a.value_now⟩

instance : IsTrans JoinedRow byValueNowDesc :=
  ⟨fun _ _ _ h1 h2 => le_trans h2 h1⟩

/-- The per-family comparison pipeline of `summarise_ga4_with_comparison`
(`src/main.py` lines 270-275): join the two windows on label, fill missing
sides with 0, compute percent change, sort descending by current value and
keep the top 5 rows. -/
def summarise_family (now prev : List Row) : List JoinedRow :=
  ((combine now prev).insertionSort byValueNowDesc).take 5

/-- A label absent from a window contributes value 0. -/
theorem lookupVal_eq_zero {rows : List Row} {l : String}
    (h : l ∉ rows.map Row.label) : lookupVal rows l = 0 := by
  rw [lookupVal]
  have hnone : rows.find? (fun r => r.label == l) = none := by
    rw [List.find?_eq_none]
    intro r hr hbeq
    exact h (List.mem_map.mpr ⟨r, hr, eq_of_beq hbeq⟩)
  rw [hnone]

/-- The join index has no duplicate labels when neither window does. -/
theorem joinLabels_nodup (now prev : List Row)
    (hnow : (now.map Row.label).Nodup) (hprev : (prev.map Row.label).Nodup) :
    (joinLabels now prev).Nodup := by
  rw [joinLabels]
  refine hnow.append (hprev.filter _) ?_
  intro l hl hlf
  rw [List.mem_filter] at hlf
  exact absurd hl (by simpa using hlf.2)

/-- The join index is exactly the union of the two windows' labels. -/
theorem joinLabels_mem (now prev : List Row) (l : String) :
    l ∈ joinLabels now prev ↔
      (l ∈ now.map Row.label ∨ l ∈ prev.map Row.label) := by
  rw [joinLabels, List.mem_append, List.mem_filter]
  by_cases h : l ∈ now.map Row.label <;> simp [h]

/-- C3: every joined comparison row's percent change equals
`(current - previous) / (previous if previous != 0 else 1) * 100`; a row
with current 120 and no matching previous row gets previous 0 and change
12000; a row with previous 50 and current 25 gets change -50. -/
theorem percent_change_spec :
    (∀ now prev : List Row, ∀ j ∈ combine now prev,
      j.change = (j.value_now - j.value_prev) /
        (if j.value_prev = 0 then 1 else j.value_prev) * 100) ∧
    combine [⟨"direct", 120⟩] [] = [⟨"direct", 120, 0, 12000⟩] ∧
    combine [⟨"newsletter", 25⟩] [⟨"newsletter", 50⟩] =
      [⟨"newsletter", 25, 50, -50⟩] := by
  refine ⟨?_, ?_, ?_⟩
  · intro now prev j hj
    rw [combine] at hj
    obtain ⟨l, _, rfl⟩ := List.mem_map.mp hj
    rfl
  · simp [combine, joinLabels, lookupVal, percent_change]
    norm_num
  · simp [combine, joinLabels, lookupVal, percent_change]
    norm_num

/-- Witness for C3 at the joined row for label "direct" with current 120
and missing previous side. -/
theorem percent_change_spec_witness :
    (JoinedRow.mk ("direct") 120 0 (percent_change 120 0)).change =
      ((JoinedRow.mk ("direct") 120 0 (percent_change 120 0)).value_now -
        (JoinedRow.mk ("direct") 120 0 (percent_change 120 0)).value_prev) /
        (if (JoinedRow.mk ("direct") 120 0 (percent_change 120 0)).value_prev = 0
         then 1
         else (JoinedRow.mk ("direct") 120 0 (percent_change 120 0)).value_prev) *
        100 :=
  percent_change_spec.1 [⟨"direct", 120⟩] [] _ (List.Mem.head _)

/-- C4: for each metric family the comparator outer-joins the two windows
on label (a label present in only one window contributes 0 on the missing
side), computes the percent change, sorts the joined rows descending by
current value and keeps at most the top 5 rows: every kept row carries the
looked-up values of its label, the output is sorted descending by current
value, its length is `min 5` the size of the label union (which, for
duplicate-free windows, indexes each label once), and every joined row
left out is dominated by each kept row. -/
theorem summarise_family_spec (now prev : List Row)
    (hnow : (now.map Row.label).Nodup) (hprev : (prev.map Row.label).Nodup) :
    (∀ j ∈ summarise_family now prev,
      (j.label ∈ now.map Row.label ∨ j.label ∈ prev.map Row.label) ∧
      j.value_now = lookupVal now j.label ∧
      j.value_prev = lookupVal prev j.label ∧
      (j.label ∉ now.map Row.label → j.value_now = 0) ∧
      (j.label ∉ prev.map Row.label → j.value_prev = 0) ∧
      j.change = percent_change j.value_now j.value_prev) ∧
    List.Sorted byValueNowDesc (summarise_family now prev) ∧
    (summarise_family now prev).length = min 5 (joinLabels now prev).length ∧
    (joinLabels now prev).Nodup ∧
    (∀ l, l ∈ joinLabels now prev ↔
      (l ∈ now.map Row.label ∨ l ∈ prev.map Row.label)) ∧
    (∀ b ∈ combine now prev, b ∉ summarise_family now prev →
      ∀ a ∈ summarise_family now prev, b.value_now ≤ a.value_now) := by
  have hsorted : List.Sorted byValueNowDesc
      ((combine now prev).insertionSort byValueNowDesc) :=
    List.sorted_insertionSort byValueNowDesc _
  refine ⟨?_, ?_, ?_, joinLabels_nodup now prev hnow hprev,
    joinLabels_mem now prev, ?_⟩
  · intro j hj
    have hj2 : j ∈ (combine now prev).insertionSort byValueNowDesc :=
      List.mem_of_mem_take hj
    have hj3 : j ∈ combine now prev :=
      (List.mem_insertionSort byValueNowDesc).mp hj2
    rw [combine] at hj3
    obtain ⟨l, hl, rfl⟩ := List.mem_map.mp hj3
    exact ⟨(joinLabels_mem now prev l).mp hl, rfl, rfl,
      fun hmiss => lookupVal_eq_zero hmiss,
      fun hmiss => lookupVal_eq_zero hmiss, rfl⟩
  · exact List.Pairwise.sublist (List.take_sublist 5 _) hsorted
  · rw [summarise_family, List.length_take,
      (List.perm_insertionSort byValueNowDesc (combine now prev)).length_eq,
      combine, List.length_map]
  · intro b hb hbo a ha
    have hsb : b ∈ (combine now prev).insertionSort byValueNowDesc :=
      (List.mem_insertionSort byValueNowDesc).mpr hb
    have hsplit := List.take_append_drop 5
      ((combine now prev).insertionSort byValueNowDesc)
    have hp : List.Pairwise byValueNowDesc
        (((combine now prev).insertionSort byValueNowDesc).take 5 ++
          ((combine now prev).insertionSort byValueNowDesc).drop 5) := by
      rw [hsplit]; exact hsorted
    rw [← hsplit] at hsb
    have hbdrop : b ∈ ((combine now prev).insertionSort byValueNowDesc).drop 5 := by
      rcases List.mem_append.mp hsb with h | h
      · exact absurd h hbo
      · exact h
    exact (List.pairwise_append.mp hp).2.2 a ha b hbdrop

/-- Witness for C4 on two windows with distinct labels. -/
theorem summarise_family_spec_witness :
    (summarise_family [⟨"a", 3⟩, ⟨"b", 2⟩] [⟨"c", 1⟩]).length =
      min 5 (joinLabels [⟨"a", 3⟩, ⟨"b", 2⟩] [⟨"c", 1⟩]).length :=
  (summarise_family_spec [⟨"a", 3⟩, ⟨"b", 2⟩] [⟨"c", 1⟩]
    (by decide) (by decide)).2.2.1

/-- The inline error message of `build_ga4_section_with_charts`
(`src/main.py` line 323), with the exception text appended (the literal
prefix is copied byte-for-byte from the source). -/
def ga4ErrMsg (e : String) : String :=
  "‚ö†Ô∏è Error retrieving GA4 data: " ++ e

/-- Embedding of `build_ga4_section_with_charts`
(`src/main.py` lines 309-323).  The three fallible steps inside the `try`
are modelled as `Except String` values: `summarise_res` stands for the
result of `summarise_ga4_with_comparison()` (which performs the warehouse
queries and the summarisation call), and `plot` for `plot_bar_chart`,
invoked once for sources and once for countries.  Python evaluates them in
this order and the first raised exception reaches the single `except`
handler, which returns the inline error string and no images. -/
def build_ga4_section_with_charts {α β : Type}
    (summarise_res : Except String (String × String × α))
    (plot : α → String → String → String → Except String β) :
    String × List (String × β) :=
  match summarise_res with
  | .error e => (ga4ErrMsg e, [])
  | .ok (table, summary, df_now) =>
    match plot df_now ("sources") ("Top Traffic Sources") ("Sessions") with
    | .error e => (ga4ErrMsg e, [])
    | .ok chart_sources =>
      match plot df_now ("countries") ("Top Countries") ("Sessions") with
      | .error e => (ga4ErrMsg e, [])
      | .ok chart_countries =>
        ("<pre>" ++ table ++ "</pre><br><b>AI Summary:</b><br>" ++ summary,
          [("chart_sources.png", chart_sources),
           ("chart_countries.png", chart_countries)])

/-- C5: every exception raised inside the analytics section assembly — in
the warehouse-query/summarisation step or in either chart-plotting step —
is caught at the section boundary: the section is the inline error string
containing the exception's text, together with an empty image list, and
(the embedding being a total function) nothing propagates, so the run can
still complete and send the report. -/
theorem build_ga4_section_error {α β : Type}
    (summarise_res : Except String (String × String × α))
    (plot : α → String → String → String → Except String β) (e : String)
    (h : summarise_res = .error e ∨
      (∃ table summary df_now,
        summarise_res = .ok (table, summary, df_now) ∧
        plot df_now ("sources") ("Top Traffic Sources") ("Sessions") = .error e) ∨
      (∃ table summary df_now chart,
        summarise_res = .ok (table, summary, df_now) ∧
        plot df_now ("sources") ("Top Traffic Sources") ("Sessions") = .ok chart ∧
        plot df_now ("countries") ("Top Countries") ("Sessions") = .error e)) :
    build_ga4_section_with_charts summarise_res plot = (ga4ErrMsg e, []) ∧
    ∃ p, (build_ga4_section_with_charts summarise_res plot).1 = p ++ e := by
  have hmain : build_ga4_section_with_charts summarise_res plot = (ga4ErrMsg e, []) := by
    rcases h with h | ⟨t, su, df, h1, h2⟩ | ⟨t, su, df, ch, h1, h2, h3⟩
    · rw [h]
      rfl
    · rw [h1]
      show (match plot df ("sources") ("Top Traffic Sources") ("Sessions") with
        | .error e => (ga4ErrMsg e, ([] : List (String × β)))
        | .ok chart_sources =>
          match plot df ("countries") ("Top Countries") ("Sessions") with
          | .error e => (ga4ErrMsg e, [])
          | .ok chart_countries =>
            ("<pre>" ++ t ++ "</pre><br><b>AI Summary:</b><br>" ++ su,
              [("chart_sources.png", chart_sources),
               ("chart_countries.png", chart_countries)])) = (ga4ErrMsg e, [])
      rw [h2]
    · rw [h1]
      show (match plot df ("sources") ("Top Traffic Sources") ("Sessions") with
        | .error e => (ga4ErrMsg e, ([] : List (String × β)))
        | .ok chart_sources =>
          match plot df ("countries") ("Top Countries") ("Sessions") with
          | .error e => (ga4ErrMsg e, [])
          | .ok chart_countries =>
            ("<pre>" ++ t ++ "</pre><br><b>AI Summary:</b><br>" ++ su,
              [("chart_sources.png", chart_sources),
               ("chart_countries.png", chart_countries)])) = (ga4ErrMsg e, [])
      rw [h2]
      show (match plot df ("countries") ("Top Countries") ("Sessions") with
        | .error e => (ga4ErrMsg e, ([] : List (String × β)))
        | .ok chart_countries =>
          ("<pre>" ++ t ++ "</pre><br><b>AI Summary:</b><br>" ++ su,
            [("chart_sources.png", ch),
             ("chart_countries.png", chart_countries)])) = (ga4ErrMsg e, [])
      rw [h3]
  refine ⟨hmain, ⟨"‚ö†Ô∏è Error retrieving GA4 data: ", ?_⟩⟩
  rw [hmain]
  rfl

/-- Witness for C5: a failing warehouse/summarisation step yields the
inline error section and no images. -/
theorem build_ga4_section_error_witness :
    build_ga4_section_with_charts
        (Except.error ("boom") : Except String (String × String × Unit))
        (fun _ _ _ _ => (Except.ok () : Except String Unit)) =
      (ga4ErrMsg ("boom"), []) :=
  (build_ga4_section_error
    (Except.error ("boom") : Except String (String × String × Unit))
    (fun _ _ _ _ => (Except.ok () : Except String Unit))
    ("boom") (Or.inl rfl)).1
